import Mathlib

/-!
Verification of the zod-fast-check schema-to-arbitrary compiler
(file src/zod-fast-check.ts).

The development shallowly embeds the compiler: JavaScript numbers are
modelled as rationals (ℚ), fast-check arbitraries as a syntax tree `Arb`
together with a value-set semantics `canGen`, zod schema nodes as the
inductive `Schema` (node identity is modelled by a surrogate `id : Nat`
field, mirroring the fact that the override table is keyed by object
identity), and exceptions as `Except Err`.  Stateful pieces (the
success-rate guard closure) are modelled by explicit state passing.
-/

namespace ZodFastCheckProof

/-! ## JavaScript numeric helpers

JS `Math.trunc` / the `%` remainder operator on numbers, transcribed to ℚ.
(`a % b = a - b * trunc (a / b)`; JS `x % 3 === 0` on integers agrees with
this rational remainder.) -/

def jsTrunc (q : ℚ) : ℤ := if q < 0 then ⌈q⌉ else ⌊q⌋

def jsRem (a b : ℚ) : ℚ := a - b * (jsTrunc (a / b) : ℚ)

/-- Number.MAX_SAFE_INTEGER. -/
def MAX_SAFE_INTEGER : ℚ := 9007199254740991

/-- Number.MIN_SAFE_INTEGER. -/
def MIN_SAFE_INTEGER : ℚ := -9007199254740991

/-- Source line 25: `const MIN_SUCCESS_RATE = 0.01`. -/
def MIN_SUCCESS_RATE : ℚ := 1 / 100

/-! ## Generated values -/

/-- Scalar JavaScript values produced by the generators modelled here. -/
inductive Val where
  | str (s : String)
  | num (q : ℚ)
  | boolV (b : Bool)
  | bigV (i : ℤ)
  | dateV (ms : ℚ)
  | undef
  | nullV
deriving DecidableEq

/-! ## Checks attached to schema nodes (zod4 `_zod.def.checks`) -/

/-- The `format` field of a zod4 `number_format` check. -/
inductive NumFormat where
  | int32
  | uint32
  | safeint
  | otherFormat
deriving DecidableEq

/-- Checks attached to a number schema.  `custom` carries the refinement
predicate (`check._zod.def.fn`). -/
inductive NumCheck where
  | greaterThan (value : ℚ) (inclusive : Bool)
  | lessThan (value : ℚ) (inclusive : Bool)
  | numberFormat (format : NumFormat)
  | multipleOf (value : ℚ)
  | custom (fn : ℚ → Bool)
  | otherCheck

/-- The `format` field of a zod4 `string_format` check. -/
inductive StrFormat where
  | datetime (precision : Option Nat) (offset : Bool)
  | email
  | url
  | uuid
  | cuid
  | startsWith (pre : String)
  | endsWith (suf : String)
  | otherFormat
deriving DecidableEq

/-- Checks attached to a string schema. -/
inductive StrCheck where
  | minLength (minimum : Nat)
  | maxLength (maximum : Nat)
  | lengthEquals (length : Nat)
  | trim
  | stringFormat (format : StrFormat)
  | otherCheck
deriving DecidableEq

/-- Checks attached to an array schema. -/
inductive ArrCheck where
  | minLength (minimum : Nat)
  | maxLength (maximum : Nat)
  | lengthEquals (length : Nat)
  | otherCheck
deriving DecidableEq

/-- Checks attached to a set schema. -/
inductive SetCheck where
  | minSize (minimum : Nat)
  | maxSize (maximum : Nat)
  | sizeEquals (size : Nat)
  | otherCheck
deriving DecidableEq

/-- Checks attached to a bigint schema. -/
inductive BigCheck where
  | greaterThan (value : ℤ) (inclusive : Bool)
  | lessThan (value : ℤ) (inclusive : Bool)
  | multipleOf (value : ℤ)
  | otherCheck
deriving DecidableEq

/-! ## Schema nodes

Each node carries a surrogate identity `id : Nat`: the source keys its
override table by JavaScript object identity, and two structurally
identical but separately constructed nodes have different identities.
The constructors cover the schema kinds exercised by the claims; the
`int` kind appears in the source `SchemaTypeName` union and in
`SCALAR_TYPES` but has no entry in `arbitraryBuilders`. -/

inductive Schema where
  | str (id : Nat) (checks : Option (List StrCheck))
  | num (id : Nat) (checks : Option (List NumCheck))
  | intS (id : Nat)
  | big (id : Nat) (checks : Option (List BigCheck))
  | boolS (id : Nat)
  | dateS (id : Nat)
  | undefS (id : Nat)
  | nullS (id : Nat)
  | lit (id : Nat) (values : List Val)
  | enumS (id : Nat) (entries : List (String × Val))
  | anyS (id : Nat)
  | unknownS (id : Nat)
  | voidS (id : Nat)
  | neverS (id : Nat)
  | nanS (id : Nat)
  | arr (id : Nat) (checks : Option (List ArrCheck)) (element : Schema)
  | setS (id : Nat) (checks : Option (List SetCheck)) (valueType : Schema)
  | optionalS (id : Nat) (innerType : Schema)
  | nullableS (id : Nat) (innerType : Schema)

/-- The schema kind tag (`schema._zod.def.type` in zod4). -/
inductive Kind where
  | string
  | number
  | int
  | bigint
  | boolean
  | date
  | undefinedK
  | nullK
  | literal
  | enumeration
  | anyK
  | unknownK
  | voidK
  | neverK
  | nan
  | array
  | setK
  | optionalK
  | nullableK
deriving DecidableEq

/-- Node identity (surrogate for JavaScript object identity). -/
def Schema.id : Schema → Nat
  | .str i _ => i
  | .num i _ => i
  | .intS i => i
  | .big i _ => i
  | .boolS i => i
  | .dateS i => i
  | .undefS i => i
  | .nullS i => i
  | .lit i _ => i
  | .enumS i _ => i
  | .anyS i => i
  | .unknownS i => i
  | .voidS i => i
  | .neverS i => i
  | .nanS i => i
  | .arr i _ _ => i
  | .setS i _ _ => i
  | .optionalS i _ => i
  | .nullableS i _ => i

/-- Kind tag of a node. -/
def Schema.kind : Schema → Kind
  | .str _ _ => .string
  | .num _ _ => .number
  | .intS _ => .int
  | .big _ _ => .bigint
  | .boolS _ => .boolean
  | .dateS _ => .date
  | .undefS _ => .undefinedK
  | .nullS _ => .nullK
  | .lit _ _ => .literal
  | .enumS _ _ => .enumeration
  | .anyS _ => .anyK
  | .unknownS _ => .unknownK
  | .voidS _ => .voidK
  | .neverS _ => .neverK
  | .nanS _ => .nan
  | .arr _ _ _ => .array
  | .setS _ _ _ => .setK
  | .optionalS _ _ => .optionalK
  | .nullableS _ _ => .nullableK

/-- All node identities occurring in a schema tree. -/
def Schema.ids : Schema → List Nat
  | .arr i _ e => i :: e.ids
  | .setS i _ e => i :: e.ids
  | .optionalS i e => i :: e.ids
  | .nullableS i e => i :: e.ids
  | s => [s.id]

/-- Source lines 87-101: the `SCALAR_TYPES` set, in declaration order. -/
def SCALAR_TYPES : List Kind :=
  [.string, .number, .int, .bigint, .boolean, .date, .undefinedK, .nullK,
   .literal, .enumeration, .anyK, .unknownK, .voidK]

/-- Whether `arbitraryBuilders` has an own property for this kind
(`isFirstPartyType`): every modelled kind except `int` has a builder. -/
def hasBuilder : Kind → Bool
  | .int => false
  | _ => true

/-! ## Errors -/

/-- The two error classes the compiler throws:
`ZodFastCheckUnsupportedSchemaError` and `ZodFastCheckGenerationError`. -/
inductive Err where
  | unsupportedSchema (message : String)
  | generation (message : String)
deriving DecidableEq

/-- Message of the success-rate guard error (source lines 1049-1054). -/
def guardMsg (path : String) : String :=
  "Unable to generate valid values for Zod schema. " ++
    "An override is must be provided for the schema at path " ++
    "\x27" ++ (if path = "" then "." else path) ++ "\x27."

/-- Message of the inverted-integer-bounds error (source lines 454-459). -/
def invertedMsg (path : String) (integerMin integerMax : ℤ) : String :=
  "Unable to generate valid integer values for schema at \"" ++ path ++
    "\": computed min (" ++ toString integerMin ++
    ") is greater than max (" ++ toString integerMax ++
    "). This may occur when constraints are impossible to satisfy " ++
    "(e.g., min > max). An override is must be provided for this schema."

/-- Message of `unsupported` (source lines 873-878). -/
def unsupportedMsg (schemaTypeName path : String) : String :=
  "Unable to generate valid values for Zod schema. " ++
    "\x27" ++ schemaTypeName ++ "\x27 schemas are not supported (at path " ++
    "\x27" ++ (if path = "" then "." else path) ++ "\x27)."

/-- Constructor-derived type name used by `unsupported` (the source strips
the `Zod` class-name prefix; for the modelled kinds only `int` reaches
this path). -/
def kindTypeName : Kind → String
  | .int => "Int"
  | .string => "String"
  | .number => "Number"
  | .bigint => "BigInt"
  | .boolean => "Boolean"
  | .date => "Date"
  | .undefinedK => "Undefined"
  | .nullK => "Null"
  | .literal => "Literal"
  | .enumeration => "Enum"
  | .anyK => "Any"
  | .unknownK => "Unknown"
  | .voidK => "Void"
  | .neverK => "Never"
  | .nan => "NaN"
  | .array => "Array"
  | .setK => "Set"
  | .optionalK => "Optional"
  | .nullableK => "Nullable"

/-! ## Arbitraries

Syntax of the fast-check generator expressions the compiler builds.
`filterSchema` is `filterArbitraryBySchema` (a `.filter` through the
schema validation wrapped in the success-rate guard); `outputDerived` is
the `.map(safeParse).filter(guard).map(project)` chain built by
`outputOf` for non-scalar schemas. -/

inductive Arb where
  | stringDefault
  | stringB (minLength maxLength : Nat)
  | strMap (base : Arb) (f : String → String)
  | emailB (minLength : Nat) (maxLength : Option Nat)
  | datetimeB (precision : Option Nat) (offset : Bool)
  | webUrl
  | uuidB
  | cuidB
  | doubleFiltered (min max : ℚ)
  | integerMul (min max : ℤ) (factor : ℚ)
  | bigIntB (min max : Option ℤ)
  | boolB
  | dateB
  | anything
  | nanB
  | constant (v : Val)
  | oneofB (alts : List Arb)
  | arrayB (element : Arb) (minLength : Nat) (maxLength : Option Nat)
  | setB (valueArb : Arb) (minLength : Nat) (maxLength : Option Nat)
  | optionB (base : Arb) (nil : Val)
  | filterSchema (base : Arb) (schema : Schema) (path : String)
  | outputDerived (base : Arb) (schema : Schema)

/-- Value-set semantics of an arbitrary: which values it can produce.
`fc.string({minLength,maxLength})` produces exactly the strings whose
length is within the bounds; `fc.integer({min,max}).map(x => x*factor)`
produces the scaled integers; `fc.double` with `noNaN`/`noDefaultInfinity`
plus the magnitude filter produces the in-range rationals; `fc.constant`
produces its value.  Constructors whose production set no claim depends
on are over-approximated by `True` (every value), which can only make
universally quantified generation claims harder to prove, never easier. -/
def canGen : Arb → Val → Prop
  | .stringDefault, v => ∃ s, v = .str s
  | .stringB lo hi, v => ∃ s, v = .str s ∧ lo ≤ s.length ∧ s.length ≤ hi
  | .strMap base f, v => ∃ s, canGen base (.str s) ∧ v = .str (f s)
  | .emailB _ _, v => ∃ s, v = .str s
  | .datetimeB _ _, v => ∃ s, v = .str s
  | .webUrl, v => ∃ s, v = .str s
  | .uuidB, v => ∃ s, v = .str s
  | .cuidB, v => ∃ s, v = .str s
  | .doubleFiltered lo hi, v =>
      ∃ q, v = .num q ∧ lo ≤ q ∧ q ≤ hi ∧ (q = 0 ∨ 1 / 10000000000 ≤ |q|)
  | .integerMul lo hi factor, v => ∃ k : ℤ, lo ≤ k ∧ k ≤ hi ∧ v = .num (k * factor)
  | .bigIntB lo hi, v =>
      ∃ i : ℤ, v = .bigV i ∧ (∀ a ∈ lo, a ≤ i) ∧ (∀ b ∈ hi, i ≤ b)
  | .boolB, v => ∃ b, v = .boolV b
  | .dateB, v => ∃ t, v = .dateV t
  | .anything, _ => True
  | .nanB, _ => True
  | .constant c, v => v = c
  | .oneofB _, _ => True
  | .arrayB _ _ _, _ => True
  | .setB _ _ _, _ => True
  | .optionB _ _, _ => True
  | .filterSchema base _ _, v => canGen base v
  | .outputDerived _ _, _ => True

/-! ## Success-rate guard (`throwIfSuccessRateBelow`, source lines 1032-1059)

The source closure holds mutable `successful` / `total` counters; we model
one evaluation of the returned filter function as an explicit state
transition. -/

/-- Source line 1037: `const MIN_RUNS = 1000`. -/
def MIN_RUNS : Nat := 1000

/-- Running counters of one guard instance. -/
structure GuardState where
  successful : Nat
  total : Nat
deriving DecidableEq

/-- Initial counters of a freshly created guard instance. -/
def guardInit : GuardState := ⟨0, 0⟩

/-- One evaluation of the filter function returned by
`throwIfSuccessRateBelow rate predicate path`: run the predicate, bump the
counters, and throw a generation error when past the warm-up the running
success ratio is below `rate`; otherwise return the raw predicate result. -/
def guardStep {α : Type} (rate : ℚ) (predicate : α → Bool) (path : String)
    (st : GuardState) (value : α) : Except Err (Bool × GuardState) :=
  let isSuccess := predicate value
  let total := st.total + 1
  let successful := if isSuccess then st.successful + 1 else st.successful
  if total > MIN_RUNS ∧ (successful : ℚ) / (total : ℚ) < rate then
    .error (.generation (guardMsg path))
  else
    .ok (isSuccess, ⟨successful, total⟩)

/-! ## Number interpreter (`arbitraryBuilders.number`, source lines 350-547) -/

/-- Mutable locals of the number builder while folding the checks list. -/
structure NumState where
  min : ℚ := -1000000
  max : Option ℚ := none
  hasExplicitMax : Bool := false
  isFiniteFlag : Bool := false
  multipleOf : Option ℚ := none
  hasSafeIntFormat : Bool := false
  customChecks : List (ℚ → Bool) := []

/-- One iteration of the first-pass loop over the number checks
(source lines 378-418).  Exclusive bounds are offset by ±0.001 here,
before any integer/float path decision is made. -/
def numStep (st : NumState) (check : NumCheck) : NumState :=
  match check with
  | .greaterThan value inclusive =>
      { st with min := max st.min (if inclusive then value else value + 1 / 1000) }
  | .lessThan value inclusive =>
      let ltValue := if inclusive then value else value - 1 / 1000
      { st with
        isFiniteFlag := true
        hasExplicitMax := true
        max := some (match st.max with
          | none => ltValue
          | some m => min m ltValue) }
  | .numberFormat format =>
      if format = .int32 ∨ format = .uint32 ∨ format = .safeint then
        { st with
          multipleOf := some (st.multipleOf.getD 1)
          hasSafeIntFormat := st.hasSafeIntFormat || format = .safeint }
      else st
  | .multipleOf value =>
      { st with multipleOf := some (st.multipleOf.getD 1 * value) }
  | .custom fn => { st with customChecks := st.customChecks ++ [fn] }
  | .otherCheck => st

/-- The whole first pass over the checks list. -/
def numFold (checks : List NumCheck) : NumState :=
  checks.foldl numStep {}

/-- Safe-integer clamping applied after the first pass
(source lines 423-432). -/
def applySafeInt (st : NumState) : NumState :=
  if st.hasSafeIntFormat then
    { st with
      min := max st.min MIN_SAFE_INTEGER
      max := some (match st.max with
        | none => MAX_SAFE_INTEGER
        | some m => min m MAX_SAFE_INTEGER) }
  else st

/-- `integerMin = Math.ceil(min / factor)` (source line 440). -/
def intMinOf (st : NumState) (factor : ℚ) : ℤ := ⌈st.min / factor⌉

/-- `integerMax`: `Math.floor(finalMax / factor)` with
`finalMax = max ?? Number.MAX_SAFE_INTEGER`, further clamped to
`Math.floor(MAX_SAFE_INTEGER / factor)` for safeint formats
(source lines 439-449). -/
def intMaxOf (st : NumState) (factor : ℚ) : ℤ :=
  let m0 : ℤ := ⌊(st.max.getD MAX_SAFE_INTEGER) / factor⌋
  if st.hasSafeIntFormat then min m0 ⌊MAX_SAFE_INTEGER / factor⌋ else m0

/-- Upper bound of the float path (source lines 471-473). -/
def doubleMaxOf (st : NumState) : ℚ :=
  match st.max with
  | some m => min m MAX_SAFE_INTEGER
  | none => 1000000

/-! ### Refinement pattern detector (`tryGenerateSmartlyForRefinement`,
source lines 962-1016) -/

/-- Sentinel inputs probed for the modulo pattern (source line 975). -/
def numTestValues : List ℚ := [0, 1, 2, 3, 6, 9, 12, -3, -6]

/-- Sentinel inputs probed for the exact-equality pattern
(source line 1002). -/
def eqTestValues : List ℚ := [-42, 0, 42, 100, -100]

/-- The modulo-detection loop: scan the sentinels; at the first sentinel
the predicate accepts that is a multiple of 3, return divisor 3 provided
the predicate also rejects 1, 2 and 4; otherwise keep scanning. -/
def detectModulo3 (fn : ℚ → Bool) : List ℚ → Option ℚ
  | [] => none
  | t :: rest =>
      if fn t = true ∧ jsRem t 3 = 0 then
        if fn 1 = false ∧ fn 2 = false ∧ fn 4 = false then some 3
        else detectModulo3 fn rest
      else detectModulo3 fn rest

/-- The exact-equality-detection loop (source lines 1002-1012): at a
sentinel accepted by the predicate whose two neighbours are rejected and
that lies within the range, return a constant generator; on any failed
condition continue scanning. -/
def detectEquality (fn : ℚ → Bool) (mn mx : ℚ) : List ℚ → Option Arb
  | [] => none
  | t :: rest =>
      if fn t = true then
        if fn (t - 1) = false ∧ fn (t + 1) = false then
          if mn ≤ t ∧ t ≤ mx then some (.constant (.num t))
          else detectEquality fn mn mx rest
        else detectEquality fn mn mx rest
      else detectEquality fn mn mx rest

/-- `tryGenerateSmartlyForRefinement`: modulo detection first; on a
detected divisor with a non-empty scaled integer range generate directly,
otherwise fall through to equality detection; `none` means the caller
falls back to rejection sampling. -/
def trySmart (fn : ℚ → Bool) (mn mx : ℚ) : Option Arb :=
  match detectModulo3 fn numTestValues with
  | some d =>
      let intMin : ℤ := ⌈mn / d⌉
      let intMax : ℤ := ⌊mx / d⌋
      if intMin ≤ intMax then some (.integerMul intMin intMax d)
      else detectEquality fn mn mx eqTestValues
  | none => detectEquality fn mn mx eqTestValues

/-- The loop over `customChecks` (source lines 522-531): first detected
pattern wins. -/
def firstSmart (fns : List (ℚ → Bool)) (mn mx : ℚ) : Option Arb :=
  match fns with
  | [] => none
  | fn :: rest =>
      match trySmart fn mn mx with
      | some a => some a
      | none => firstSmart rest mn mx

/-- The decision tree for custom checks (source lines 517-546): with no
custom checks return the base arbitrary; otherwise use the first smartly
generated arbitrary, or wrap the base arbitrary in
`filterArbitraryBySchema`. -/
def finishCustom (self : Schema) (path : String) (st : NumState)
    (arbitrary : Arb) : Arb :=
  if st.customChecks.isEmpty then arbitrary
  else
    match firstSmart st.customChecks st.min
        (st.max.getD (if st.hasSafeIntFormat then MAX_SAFE_INTEGER else 1000000)) with
    | some smart => smart
    | none => .filterSchema arbitrary self path

/-- The number builder.  `self` is the schema node itself (used by
`filterArbitraryBySchema`).  With no checks list: the default bounded
double.  Otherwise fold the checks, clamp for safeint, then either the
integer path (throwing at construction time when the scaled integer
bounds are inverted) or the float path, and finally the custom-check
decision tree. -/
def numberBuilder (self : Schema) (checks? : Option (List NumCheck))
    (path : String) : Except Err Arb :=
  match checks? with
  | none => .ok (.doubleFiltered (-1000000) 1000000)
  | some checks =>
      let st := applySafeInt (numFold checks)
      match st.multipleOf with
      | some factor =>
          if intMinOf st factor > intMaxOf st factor then
            .error (.generation
              (invertedMsg path (intMinOf st factor) (intMaxOf st factor)))
          else
            .ok (finishCustom self path st
              (.integerMul (intMinOf st factor) (intMaxOf st factor) factor))
      | none =>
          .ok (finishCustom self path st
            (.doubleFiltered (max st.min (-1000000)) (doubleMaxOf st)))

/-! ## String interpreter (`arbitraryBuilders.string`, source lines 255-349) -/

/-- Mutable locals of the string builder. -/
structure StrState where
  minLength : Nat := 0
  maxLength : Option Nat := none
  hasUnsupportedCheck : Bool := false
  mappings : List (String → String) := []

/-- The loop over the string checks.  `Sum.inr` models the early `return`
statements for the datetime/url/uuid/cuid formats; min bounds take the
maximum seen, max bounds the minimum seen; `length_equals` pins both;
affix formats push mapping functions; unrecognized checks set the
post-filtering flag. -/
def stringLoop (st : StrState) : List StrCheck → StrState ⊕ Arb
  | [] => .inl st
  | check :: rest =>
      match check with
      | .minLength minimum =>
          stringLoop { st with minLength := max st.minLength minimum } rest
      | .maxLength maximum =>
          stringLoop
            { st with maxLength := some (match st.maxLength with
                | none => maximum
                | some m => min m maximum) } rest
      | .lengthEquals len =>
          stringLoop { st with minLength := len, maxLength := some len } rest
      | .trim => stringLoop st rest
      | .stringFormat format =>
          match format with
          | .datetime precision offset => .inr (.datetimeB precision offset)
          | .email => stringLoop st rest
          | .url => .inr .webUrl
          | .uuid => .inr .uuidB
          | .cuid => .inr .cuidB
          | .startsWith pre =>
              stringLoop
                { st with mappings := st.mappings ++ [fun s => pre ++ s] } rest
          | .endsWith suf =>
              stringLoop
                { st with mappings := st.mappings ++ [fun s => s ++ suf] } rest
          | .otherFormat =>
              stringLoop { st with hasUnsupportedCheck := true } rest
      | .otherCheck =>
          stringLoop { st with hasUnsupportedCheck := true } rest

/-- `checks?.some(c => c is string_format with format email)`
(source lines 319-321). -/
def hasEmailFormat (checks : List StrCheck) : Bool :=
  checks.any fun c =>
    match c with
    | .stringFormat .email => true
    | _ => false

/-- The string builder.  No checks list: the unconstrained default string
generator.  Otherwise run the loop; an early return short-circuits; the
email format gets the dedicated filtered generator; else the max length
defaults to `2*minLength + 10` when never set, the affix mappings are
applied in order and an unsupported check degrades to post-filtering. -/
def stringBuilder (self : Schema) (checks? : Option (List StrCheck))
    (path : String) : Except Err Arb :=
  match checks? with
  | none => .ok .stringDefault
  | some checks =>
      match stringLoop {} checks with
      | .inr early => .ok early
      | .inl st =>
          if hasEmailFormat checks then
            .ok (.emailB st.minLength st.maxLength)
          else
            let maxLength := st.maxLength.getD (2 * st.minLength + 10)
            let unfiltered :=
              st.mappings.foldl (fun a f => Arb.strMap a f)
                (Arb.stringB st.minLength maxLength)
            if st.hasUnsupportedCheck then .ok (.filterSchema unfiltered self path)
            else .ok unfiltered

/-! ## Bigint interpreter (`arbitraryBuilders.bigint`, source lines 548-579) -/

/-- Mutable locals of the bigint builder. -/
structure BigState where
  min : Option ℤ := none
  max : Option ℤ := none
deriving DecidableEq

/-- One iteration of the bigint checks loop.  Exclusive bounds are offset
by ±1 (`BigInt(1)`); note the source keeps the smaller of two lower
bounds and the larger of two upper bounds. -/
def bigStep (st : BigState) (check : BigCheck) : BigState :=
  match check with
  | .greaterThan value inclusive =>
      let gtValue := if inclusive then value else value + 1
      { st with min := some (match st.min with
          | none => gtValue
          | some m => if gtValue < m then gtValue else m) }
  | .lessThan value inclusive =>
      let ltValue := if inclusive then value else value - 1
      { st with max := some (match st.max with
          | none => ltValue
          | some m => if ltValue > m then ltValue else m) }
  | .multipleOf _ => st
  | .otherCheck => st

/-- The bigint builder. -/
def bigintBuilder (checks? : Option (List BigCheck)) : Arb :=
  match checks? with
  | none => .bigIntB none none
  | some checks =>
      let st := checks.foldl bigStep {}
      .bigIntB st.min st.max

/-! ## Array and set interpreters (source lines 592-619 and 666-692) -/

/-- Mutable length/size bounds of the array and set builders. -/
structure SizeState where
  minLength : Nat := 0
  maxLength : Option Nat := none
deriving DecidableEq

/-- One iteration of the array checks loop: note the bounds are
overwritten, not tightened. -/
def arrStep (st : SizeState) (check : ArrCheck) : SizeState :=
  match check with
  | .minLength minimum => { st with minLength := minimum }
  | .maxLength maximum => { st with maxLength := some maximum }
  | .lengthEquals len => { minLength := len, maxLength := some len }
  | .otherCheck => st

/-- The array checks fold. -/
def arrFold (checks? : Option (List ArrCheck)) : SizeState :=
  match checks? with
  | none => {}
  | some checks => checks.foldl arrStep {}

/-- One iteration of the set checks loop: bounds are likewise
overwritten. -/
def setStep (st : SizeState) (check : SetCheck) : SizeState :=
  match check with
  | .minSize minimum => { st with minLength := minimum }
  | .maxSize maximum => { st with maxLength := some maximum }
  | .sizeEquals size => { minLength := size, maxLength := some size }
  | .otherCheck => st

/-- The set checks fold. -/
def setFold (checks? : Option (List SetCheck)) : SizeState :=
  match checks? with
  | none => {}
  | some checks => checks.foldl setStep {}

/-! ## Enum and literal builders (source lines 703-715, 1072-1083) -/

/-- Stringification of a value used as a JavaScript property key
(zod enums only use string keys and integer numeric values). -/
def jsPropKey : Val → String
  | .str s => s
  | .num q => if q.den = 1 then toString q.num else toString q
  | .boolV b => if b then "true" else "false"
  | .bigV i => toString i
  | .dateV _ => ""
  | .undef => "undefined"
  | .nullV => "null"

/-- Property lookup on the entries object. -/
def lookupEntry : List (String × Val) → String → Option Val
  | [], _ => none
  | (k, v) :: rest, key => if k = key then some v else lookupEntry rest key

/-- `getValidEnumValues`: drop the reverse mappings numeric TypeScript
enums create (keys whose value, used as a key, maps to a number). -/
def getValidEnumValues (entries : List (String × Val)) : List Val :=
  (entries.filter fun ke =>
    match lookupEntry entries (jsPropKey ke.2) with
    | some (.num _) => false
    | _ => true).map (fun ke => ke.2)

/-- The enum builder: one-of over the valid enum values. -/
def enumBuilder (entries : List (String × Val)) : Arb :=
  .oneofB ((getValidEnumValues entries).map Arb.constant)

/-- The literal builder (source lines 703-707): `fc.constant(values[0])`;
indexing an empty list gives `undefined`. -/
def literalBuilder (values : List Val) : Arb :=
  .constant (values.headD .undef)

/-! ## Override registry (source lines 107-232) -/

/-- An override entry: either a fixed arbitrary or a factory.  The source
stores the factory function itself; here a factory is a surrogate index
`fid` resolved through a `FactoryEnv`, which models applying the stored
function to the live compiler instance (the compiler state being its
override table). -/
inductive OverrideArb where
  | fixed (a : Arb)
  | factory (fid : Nat)

/-- The override table: insertion-ordered entries keyed by node
identity (a JavaScript `Map`). -/
abbrev Overrides := List (Nat × OverrideArb)

/-- Interpretation of factory indices: applying the user factory function
to a compiler instance. -/
abbrev FactoryEnv := Nat → Overrides → Arb

/-- `Map.get`: first (and, for tables built by `Map.set`, only) entry for
a key. -/
def lookupOv : Overrides → Nat → Option OverrideArb
  | [], _ => none
  | (k, e) :: rest, sid => if k = sid then some e else lookupOv rest sid

/-- Resolution of a found entry (source lines 204-207): a factory is
invoked with the live compiler, a fixed arbitrary is returned directly. -/
def resolveOverride (env : FactoryEnv) (ov : Overrides) : OverrideArb → Arb
  | .fixed a => a
  | .factory fid => env fid ov

/-- `findOverride` (source lines 199-211). -/
def findOverride (env : FactoryEnv) (ov : Overrides) (sid : Nat) : Option Arb :=
  (lookupOv ov sid).map (resolveOverride env ov)

/-- `Map.set`: replace the value at an existing key in place, else append
a new entry. -/
def mapSet : Overrides → Nat → OverrideArb → Overrides
  | [], k, e => [(k, e)]
  | (k0, e0) :: rest, k, e =>
      if k0 = k then (k0, e) :: rest else (k0, e0) :: mapSet rest k e

/-- `clone` (source lines 113-119): a fresh compiler whose table is
populated by `Map.set` from each entry of the original, in order. -/
def cloneOv (ov : Overrides) : Overrides :=
  ov.foldl (fun m ke => mapSet m ke.1 ke.2) []

/-- `override` (source lines 217-224): clone, then set the new entry on
the clone; the original table is not touched. -/
def overrideCfg (ov : Overrides) (sid : Nat) (e : OverrideArb) : Overrides :=
  mapSet (cloneOv ov) sid e

/-! ## Traversal engine (`inputWithPath`, source lines 130-156) -/

/-- The recursive compiler: consult the override registry first; on a hit
return the resolved arbitrary with no further processing; otherwise
dispatch on the kind tag to the per-kind builder (recursing into children
with the extended path); a kind with no builder raises the
unsupported-schema error. -/
def inputWithPath (env : FactoryEnv) (ov : Overrides) (s : Schema)
    (path : String) : Except Err Arb :=
  match findOverride env ov s.id with
  | some a => .ok a
  | none =>
      match s with
      | .str _ checks => stringBuilder s checks path
      | .num _ checks => numberBuilder s checks path
      | .intS _ => .error (.unsupportedSchema (unsupportedMsg (kindTypeName .int) path))
      | .big _ checks => .ok (bigintBuilder checks)
      | .boolS _ => .ok .boolB
      | .dateS _ => .ok .dateB
      | .undefS _ => .ok (.constant .undef)
      | .nullS _ => .ok (.constant .nullV)
      | .lit _ values => .ok (literalBuilder values)
      | .enumS _ entries => .ok (enumBuilder entries)
      | .anyS _ => .ok .anything
      | .unknownS _ => .ok .anything
      | .voidS _ => .ok (.constant .undef)
      | .neverS _ =>
          .error (.unsupportedSchema (unsupportedMsg "Never" path))
      | .nanS _ => .ok .nanB
      | .arr _ checks element => do
          let elemArb ← inputWithPath env ov element (path ++ "[*]")
          let st := arrFold checks
          .ok (.arrayB elemArb st.minLength st.maxLength)
      | .setS _ checks valueType => do
          let valArb ← inputWithPath env ov valueType (path ++ ".(value)")
          let st := setFold checks
          .ok (.setB valArb st.minLength st.maxLength)
      | .optionalS _ innerType => do
          let innerArb ← inputWithPath env ov innerType path
          .ok (.optionB innerArb .undef)
      | .nullableS _ innerType => do
          let innerArb ← inputWithPath env ov innerType path
          .ok (.optionB innerArb .nullV)

/-- `inputOf` (source lines 124-128). -/
def inputOf (env : FactoryEnv) (ov : Overrides) (s : Schema) : Except Err Arb :=
  inputWithPath env ov s ""

/-- `outputOf` (source lines 162-197): always compile the input arbitrary
first; for first-party scalar kinds return it unchanged; otherwise build
the parse/filter/project chain on top of it. -/
def outputOf (env : FactoryEnv) (ov : Overrides) (s : Schema) : Except Err Arb := do
  let inputArbitrary ← inputOf env ov s
  if hasBuilder s.kind = true ∧ s.kind ∈ SCALAR_TYPES then
    .ok inputArbitrary
  else
    .ok (.outputDerived inputArbitrary s)

/-! ## Supporting lemmas -/

/-- Whether a string check is a pure length-bound check. -/
def isLenCheck : StrCheck → Bool
  | .minLength _ => true
  | .maxLength _ => true
  | _ => false

/-- The minimum length resolved from a checks list: the maximum over all
min-length checks, starting from an accumulator. -/
def minLenAcc (a : Nat) (checks : List StrCheck) : Nat :=
  checks.foldl
    (fun acc c => match c with | .minLength n => max acc n | _ => acc) a

/-- The maximum length resolved from a checks list: the minimum over all
max-length checks, `none` while no such check has been seen. -/
def maxLenAcc (b : Option Nat) (checks : List StrCheck) : Option Nat :=
  checks.foldl
    (fun acc c => match c with
      | .maxLength n => some (match acc with | none => n | some m => min m n)
      | _ => acc) b

/-- The resolved minimum length of a string schema. -/
def resolvedMinLen (checks : List StrCheck) : Nat := minLenAcc 0 checks

/-- The resolved maximum length of a string schema (before the
`2*minLength + 10` default). -/
def resolvedMaxLen (checks : List StrCheck) : Option Nat := maxLenAcc none checks

lemma stringLoop_of_lenChecks (checks : List StrCheck) :
    ∀ st : StrState, checks.all isLenCheck = true →
    stringLoop st checks = .inl
      { minLength := minLenAcc st.minLength checks
        maxLength := maxLenAcc st.maxLength checks
        hasUnsupportedCheck := st.hasUnsupportedCheck
        mappings := st.mappings } := by
  induction checks with
  | nil => intro st _; rfl
  | cons c rest ih =>
      intro st hall
      have hc : isLenCheck c = true := by
        have := List.all_eq_true.1 hall c (List.mem_cons_self c rest)
        exact this
      have hrest : rest.all isLenCheck = true := by
        refine List.all_eq_true.2 fun x hx => ?_
        exact List.all_eq_true.1 hall x (List.mem_cons_of_mem c hx)
      cases c with
      | minLength n =>
          simpa [stringLoop, minLenAcc, maxLenAcc] using ih _ hrest
      | maxLength n =>
          simpa [stringLoop, minLenAcc, maxLenAcc] using ih _ hrest
      | lengthEquals n => simp [isLenCheck] at hc
      | trim => simp [isLenCheck] at hc
      | stringFormat f => simp [isLenCheck] at hc
      | otherCheck => simp [isLenCheck] at hc

lemma hasEmailFormat_of_lenChecks (checks : List StrCheck)
    (hall : checks.all isLenCheck = true) : hasEmailFormat checks = false := by
  rw [hasEmailFormat]
  refine List.any_eq_false.2 fun c hc => ?_
  have := List.all_eq_true.1 hall c hc
  cases c <;> simp_all [isLenCheck]

lemma lookupOv_mapSet_self (m : Overrides) (k : Nat) (e : OverrideArb) :
    lookupOv (mapSet m k e) k = some e := by
  induction m with
  | nil => simp [mapSet, lookupOv]
  | cons p rest ih =>
      by_cases h : p.1 = k
      · simp [mapSet, h, lookupOv]
      · simp [mapSet, h, lookupOv, ih]

lemma lookupOv_mapSet_ne (m : Overrides) (k : Nat) (e : OverrideArb)
    (k' : Nat) (hne : k' ≠ k) :
    lookupOv (mapSet m k e) k' = lookupOv m k' := by
  have hkk : ¬ (k = k') := fun h => hne h.symm
  induction m with
  | nil => simp [mapSet, lookupOv, hkk]
  | cons p rest ih =>
      obtain ⟨k0, e0⟩ := p
      by_cases h : k0 = k
      · subst h
        simp [mapSet, lookupOv, hkk]
      · by_cases h2 : k0 = k'
        · simp [mapSet, h, lookupOv, h2, hne]
        · simp [mapSet, h, lookupOv, h2, ih]

lemma mapSet_of_not_mem (m : Overrides) (k : Nat) (e : OverrideArb)
    (h : k ∉ m.map Prod.fst) : mapSet m k e = m ++ [(k, e)] := by
  induction m with
  | nil => rfl
  | cons p rest ih =>
      obtain ⟨k0, e0⟩ := p
      simp only [List.map_cons, List.mem_cons] at h
      push_neg at h
      have h1 : ¬ (k0 = k) := fun hh => h.1 hh.symm
      simp [mapSet, h1, ih h.2]

lemma cloneOv_aux (l : List (Nat × OverrideArb)) :
    ∀ acc : Overrides, ((acc ++ l).map Prod.fst).Nodup →
    l.foldl (fun m ke => mapSet m ke.1 ke.2) acc = acc ++ l := by
  induction l with
  | nil => intro acc _; simp
  | cons p rest ih =>
      intro acc hnd
      rw [List.map_append] at hnd
      have hp : p.1 ∉ acc.map Prod.fst := by
        intro hmem
        have hdisj := (List.nodup_append.1 hnd).2.2
        exact List.disjoint_left.1 hdisj hmem (by simp)
      have hstep : mapSet acc p.1 p.2 = acc ++ [p] := mapSet_of_not_mem acc p.1 p.2 hp
      have hnd2 : (((acc ++ [p]) ++ rest).map Prod.fst).Nodup := by
        simpa using hnd
      calc (p :: rest).foldl (fun m ke => mapSet m ke.1 ke.2) acc
          = rest.foldl (fun m ke => mapSet m ke.1 ke.2) (mapSet acc p.1 p.2) := by
            rw [List.foldl_cons]
        _ = rest.foldl (fun m ke => mapSet m ke.1 ke.2) (acc ++ [p]) := by rw [hstep]
        _ = (acc ++ [p]) ++ rest := ih (acc ++ [p]) hnd2
        _ = acc ++ p :: rest := by simp

/-- Under the `Map` invariant (no duplicate keys), cloning reproduces the
same table. -/
lemma cloneOv_eq (ov : Overrides) (hnd : (ov.map Prod.fst).Nodup) :
    cloneOv ov = ov := by
  have := cloneOv_aux ov [] (by simpa using hnd)
  simpa [cloneOv] using this

/-- Compiling a schema none of whose node identities has an override
entry does not depend on which of two such tables is in effect. -/
lemma inputWithPath_lookup_none (env : FactoryEnv) (ov₁ ov₂ : Overrides) :
    ∀ (t : Schema) (path : String),
    (∀ i ∈ t.ids, lookupOv ov₁ i = none ∧ lookupOv ov₂ i = none) →
    inputWithPath env ov₁ t path = inputWithPath env ov₂ t path := by
  intro t
  induction t with
  | arr i checks element ih =>
      intro path h
      have hi := h i (by simp [Schema.ids])
      have helem : ∀ j ∈ element.ids, lookupOv ov₁ j = none ∧ lookupOv ov₂ j = none := by
        intro j hj
        exact h j (by simp [Schema.ids, hj])
      simp only [inputWithPath, findOverride, hi.1, hi.2, Schema.id, Option.map_none']
      rw [ih _ helem]
  | setS i checks valueType ih =>
      intro path h
      have hi := h i (by simp [Schema.ids])
      have helem : ∀ j ∈ valueType.ids, lookupOv ov₁ j = none ∧ lookupOv ov₂ j = none := by
        intro j hj
        exact h j (by simp [Schema.ids, hj])
      simp only [inputWithPath, findOverride, hi.1, hi.2, Schema.id, Option.map_none']
      rw [ih _ helem]
  | optionalS i innerType ih =>
      intro path h
      have hi := h i (by simp [Schema.ids])
      have helem : ∀ j ∈ innerType.ids, lookupOv ov₁ j = none ∧ lookupOv ov₂ j = none := by
        intro j hj
        exact h j (by simp [Schema.ids, hj])
      simp only [inputWithPath, findOverride, hi.1, hi.2, Schema.id, Option.map_none']
      rw [ih _ helem]
  | nullableS i innerType ih =>
      intro path h
      have hi := h i (by simp [Schema.ids])
      have helem : ∀ j ∈ innerType.ids, lookupOv ov₁ j = none ∧ lookupOv ov₂ j = none := by
        intro j hj
        exact h j (by simp [Schema.ids, hj])
      simp only [inputWithPath, findOverride, hi.1, hi.2, Schema.id, Option.map_none']
      rw [ih _ helem]
  | str i checks =>
      intro path h
      have hi := h i (by simp [Schema.ids, Schema.id])
      simp only [inputWithPath, findOverride, hi.1, hi.2, Schema.id, Option.map_none']
  | num i checks =>
      intro path h
      have hi := h i (by simp [Schema.ids, Schema.id])
      simp only [inputWithPath, findOverride, hi.1, hi.2, Schema.id, Option.map_none']
  | intS i =>
      intro path h
      have hi := h i (by simp [Schema.ids, Schema.id])
      simp only [inputWithPath, findOverride, hi.1, hi.2, Schema.id, Option.map_none']
  | big i checks =>
      intro path h
      have hi := h i (by simp [Schema.ids, Schema.id])
      simp only [inputWithPath, findOverride, hi.1, hi.2, Schema.id, Option.map_none']
  | boolS i =>
      intro path h
      have hi := h i (by simp [Schema.ids, Schema.id])
      simp only [inputWithPath, findOverride, hi.1, hi.2, Schema.id, Option.map_none']
  | dateS i =>
      intro path h
      have hi := h i (by simp [Schema.ids, Schema.id])
      simp only [inputWithPath, findOverride, hi.1, hi.2, Schema.id, Option.map_none']
  | undefS i =>
      intro path h
      have hi := h i (by simp [Schema.ids, Schema.id])
      simp only [inputWithPath, findOverride, hi.1, hi.2, Schema.id, Option.map_none']
  | nullS i =>
      intro path h
      have hi := h i (by simp [Schema.ids, Schema.id])
      simp only [inputWithPath, findOverride, hi.1, hi.2, Schema.id, Option.map_none']
  | lit i values =>
      intro path h
      have hi := h i (by simp [Schema.ids, Schema.id])
      simp only [inputWithPath, findOverride, hi.1, hi.2, Schema.id, Option.map_none']
  | enumS i entries =>
      intro path h
      have hi := h i (by simp [Schema.ids, Schema.id])
      simp only [inputWithPath, findOverride, hi.1, hi.2, Schema.id, Option.map_none']
  | anyS i =>
      intro path h
      have hi := h i (by simp [Schema.ids, Schema.id])
      simp only [inputWithPath, findOverride, hi.1, hi.2, Schema.id, Option.map_none']
  | unknownS i =>
      intro path h
      have hi := h i (by simp [Schema.ids, Schema.id])
      simp only [inputWithPath, findOverride, hi.1, hi.2, Schema.id, Option.map_none']
  | voidS i =>
      intro path h
      have hi := h i (by simp [Schema.ids, Schema.id])
      simp only [inputWithPath, findOverride, hi.1, hi.2, Schema.id, Option.map_none']
  | neverS i =>
      intro path h
      have hi := h i (by simp [Schema.ids, Schema.id])
      simp only [inputWithPath, findOverride, hi.1, hi.2, Schema.id, Option.map_none']
  | nanS i =>
      intro path h
      have hi := h i (by simp [Schema.ids, Schema.id])
      simp only [inputWithPath, findOverride, hi.1, hi.2, Schema.id, Option.map_none']

/-! ## Claim C1: success-rate guard warm-up and floor -/

/-- C1.  Every evaluation of a success-rate guard instance whose running
total (including the current trial) has not exceeded the 1000-trial
warm-up returns the raw predicate result; any evaluation past the warm-up
at which the running success ratio is below the 1% floor raises the
Generation error naming the path and instructing that an override must be
provided; past the warm-up with the ratio not below the floor, the raw
predicate result is returned and counting continues. -/
theorem guard_warmup_and_floor {α : Type} (predicate : α → Bool)
    (path : String) (st : GuardState) (value : α) :
    (st.total + 1 ≤ MIN_RUNS →
      guardStep MIN_SUCCESS_RATE predicate path st value =
        .ok (predicate value,
          ⟨if predicate value then st.successful + 1 else st.successful,
            st.total + 1⟩)) ∧
    (MIN_RUNS < st.total + 1 →
      (((if predicate value then st.successful + 1 else st.successful : Nat) : ℚ) /
          ((st.total + 1 : Nat) : ℚ) < MIN_SUCCESS_RATE) →
      guardStep MIN_SUCCESS_RATE predicate path st value =
        .error (.generation (guardMsg path))) ∧
    (MIN_RUNS < st.total + 1 →
      (MIN_SUCCESS_RATE ≤
        ((if predicate value then st.successful + 1 else st.successful : Nat) : ℚ) /
          ((st.total + 1 : Nat) : ℚ)) →
      guardStep MIN_SUCCESS_RATE predicate path st value =
        .ok (predicate value,
          ⟨if predicate value then st.successful + 1 else st.successful,
            st.total + 1⟩)) := by
  refine ⟨fun h1 => ?_, fun h1 h2 => ?_, fun h1 h2 => ?_⟩
  · rw [guardStep, if_neg]
    intro hc
    omega
  · rw [guardStep, if_pos]
    exact ⟨h1, h2⟩
  · rw [guardStep, if_neg]
    intro hc
    exact absurd hc.2 (not_lt.2 h2)

/-- Witness for C1 at concrete states: the 1st trial of a fresh instance
returns the raw result; the 1001st trial of an instance that has seen no
successes raises the Generation error. -/
theorem guard_warmup_and_floor_witness :
    guardStep MIN_SUCCESS_RATE (fun _ : Nat => true) "" ⟨0, 0⟩ 0 =
      .ok (true, ⟨1, 1⟩) ∧
    guardStep MIN_SUCCESS_RATE (fun _ : Nat => false) "age" ⟨0, 1000⟩ 0 =
      .error (.generation (guardMsg "age")) := by
  constructor
  · exact (guard_warmup_and_floor (fun _ : Nat => true) "" ⟨0, 0⟩ 0).1
      (by norm_num [MIN_RUNS])
  · exact (guard_warmup_and_floor (fun _ : Nat => false) "age" ⟨0, 1000⟩ 0).2.1
      (by norm_num [MIN_RUNS])
      (by norm_num [MIN_SUCCESS_RATE])

/-! ## Claim C3: combination of repeated checks -/

/-- C3 counterexample.  On an array schema with checks
`min_length 5, min_length 2` the array interpreter resolves the minimum
length to 2 — the later check overwrote (and loosened) the earlier bound,
instead of taking the maximum 5 as claimed — and the compiled generator
accepts arrays of length 2. -/
theorem array_min_checks_not_tightened :
    (arrFold (some [.minLength 5, .minLength 2])).minLength = 2 ∧
    (2 : Nat) ≠ max 5 2 ∧
    inputWithPath (fun _ _ => .anything) []
        (.arr 0 (some [.minLength 5, .minLength 2]) (.boolS 1)) "" =
      .ok (.arrayB .boolB 2 none) := by
  refine ⟨rfl, by decide, rfl⟩

/-- C3 amended.  The string and number interpreters tighten repeated
checks (resolved minimum = maximum of the minima seen, resolved maximum =
minimum of the maxima seen), but the array and set interpreters instead
overwrite the bound with each later check of the same kind, which can
loosen a previously computed bound. -/
theorem check_combination_amended :
    (∀ (st : StrState) (n : Nat) (rest : List StrCheck),
      stringLoop st (.minLength n :: rest) =
        stringLoop { st with minLength := max st.minLength n } rest) ∧
    (∀ (st : StrState) (n : Nat) (rest : List StrCheck),
      stringLoop st (.maxLength n :: rest) =
        stringLoop
          { st with maxLength := some (match st.maxLength with
              | none => n
              | some m => min m n) } rest) ∧
    (∀ (st : NumState) (v : ℚ) (inclusive : Bool),
      (numStep st (.greaterThan v inclusive)).min =
        max st.min (if inclusive then v else v + 1 / 1000)) ∧
    (∀ (st : NumState) (v : ℚ) (inclusive : Bool),
      (numStep st (.lessThan v inclusive)).max =
        some (match st.max with
          | none => if inclusive then v else v - 1 / 1000
          | some m => min m (if inclusive then v else v - 1 / 1000))) ∧
    (∀ (st : SizeState) (n : Nat), (arrStep st (.minLength n)).minLength = n) ∧
    (∀ (st : SizeState) (n : Nat), (arrStep st (.maxLength n)).maxLength = some n) ∧
    (∀ (st : SizeState) (n : Nat), (setStep st (.minSize n)).minLength = n) ∧
    (∀ (st : SizeState) (n : Nat), (setStep st (.maxSize n)).maxLength = some n) := by
  refine ⟨fun st n rest => rfl, fun st n rest => rfl, fun st v inc => rfl,
    fun st v inc => rfl, fun st n => rfl, fun st n => rfl, fun st n => rfl,
    fun st n => rfl⟩

/-- Unfolding of the number builder on the integer (multiple-of) path. -/
lemma numberBuilder_eq_of_multipleOf (self : Schema) (path : String)
    (checks : List NumCheck) (factor : ℚ)
    (hm : (applySafeInt (numFold checks)).multipleOf = some factor) :
    numberBuilder self (some checks) path =
      if intMinOf (applySafeInt (numFold checks)) factor >
          intMaxOf (applySafeInt (numFold checks)) factor then
        .error (.generation (invertedMsg path
          (intMinOf (applySafeInt (numFold checks)) factor)
          (intMaxOf (applySafeInt (numFold checks)) factor)))
      else
        .ok (finishCustom self path (applySafeInt (numFold checks))
          (.integerMul (intMinOf (applySafeInt (numFold checks)) factor)
            (intMaxOf (applySafeInt (numFold checks)) factor) factor)) := by
  rw [numberBuilder, hm]

/-- Unfolding of the number builder on the float path. -/
lemma numberBuilder_eq_of_noMultipleOf (self : Schema) (path : String)
    (checks : List NumCheck)
    (hm : (applySafeInt (numFold checks)).multipleOf = none) :
    numberBuilder self (some checks) path =
      .ok (finishCustom self path (applySafeInt (numFold checks))
        (.doubleFiltered (max (applySafeInt (numFold checks)).min (-1000000))
          (doubleMaxOf (applySafeInt (numFold checks))))) := by
  rw [numberBuilder, hm]

/-- On an override hit the compiler returns the resolved arbitrary with no
further processing of the node. -/
lemma inputWithPath_of_override (env : FactoryEnv) (ov : Overrides)
    (s : Schema) (path : String) (a : Arb)
    (h : findOverride env ov s.id = some a) :
    inputWithPath env ov s path = .ok a := by
  cases s <;> (rw [inputWithPath]; simp only [Schema.id] at h ⊢; rw [h])

/-! ## Claim C4: exclusive-bound offsets in the number interpreter -/

/-- C4 counterexample.  On the number schema with checks
`greater_than 5 (exclusive), multiple_of 0.5` the interpreter resolves the
lower bound to 5.001 (the float offset +0.001, although the integer path
is taken), not to 5 + 1; consequently the compiled integer generator has
lower bound ceil(5.001/0.5) = 11, while the claimed +1 conversion would
give ceil(6/0.5) = 12. -/
theorem exclusive_offset_integer_path_counterexample :
    (applySafeInt (numFold [.greaterThan 5 false, .multipleOf (1/2)])).min =
      5001/1000 ∧
    (5001/1000 : ℚ) ≠ 5 + 1 ∧
    inputWithPath (fun _ _ => .anything) []
        (.num 0 (some [.greaterThan 5 false, .multipleOf (1/2)])) "" =
      .ok (.integerMul 11 18014398509481982 (1/2)) ∧
    (⌈((5 : ℚ) + 1) / (1/2)⌉ : ℤ) = 12 ∧
    (11 : ℤ) ≠ 12 := by
  have hmax : max (-1000000 : ℚ) (5 + 1/1000) = 5001/1000 := by
    rw [max_eq_right (by norm_num)]
    norm_num
  have hmin : (applySafeInt (numFold [.greaterThan 5 false, .multipleOf (1/2)])).min =
      5001/1000 := by
    simp only [numFold, List.foldl, numStep, applySafeInt, if_false,
      Bool.false_eq_true, Option.getD]
    simpa using hmax
  have hmult : (applySafeInt (numFold [.greaterThan 5 false, .multipleOf (1/2)])).multipleOf =
      some (1/2) := by
    simp [numFold, numStep, applySafeInt]
  have hmaxnone : (applySafeInt (numFold [.greaterThan 5 false, .multipleOf (1/2)])).max =
      none := by
    simp [numFold, numStep, applySafeInt]
  have hsafe : (applySafeInt (numFold [.greaterThan 5 false, .multipleOf (1/2)])).hasSafeIntFormat =
      false := by
    simp [numFold, numStep, applySafeInt]
  have hcc : (applySafeInt (numFold [.greaterThan 5 false, .multipleOf (1/2)])).customChecks =
      [] := by
    simp [numFold, numStep, applySafeInt]
  have hImin : intMinOf (applySafeInt (numFold [.greaterThan 5 false, .multipleOf (1/2)])) (1/2) =
      11 := by
    rw [intMinOf, hmin, Int.ceil_eq_iff]; norm_num
  have hImax : intMaxOf (applySafeInt (numFold [.greaterThan 5 false, .multipleOf (1/2)])) (1/2) =
      18014398509481982 := by
    rw [intMaxOf, hmaxnone, hsafe]
    simp only [Option.getD, if_false, Bool.false_eq_true, MAX_SAFE_INTEGER]
    rw [Int.floor_eq_iff]; norm_num
  refine ⟨hmin, by norm_num, ?_, by rw [Int.ceil_eq_iff]; norm_num, by decide⟩
  have hb : inputWithPath (fun _ _ => .anything) []
      (.num 0 (some [.greaterThan 5 false, .multipleOf (1/2)])) "" =
      numberBuilder (.num 0 (some [.greaterThan 5 false, .multipleOf (1/2)]))
        (some [.greaterThan 5 false, .multipleOf (1/2)]) "" := rfl
  rw [hb, numberBuilder_eq_of_multipleOf _ _ _ _ hmult]
  rw [if_neg (by rw [hImin, hImax]; decide)]
  rw [finishCustom, if_pos (by rw [hcc]; rfl), hImin, hImax]

/-- C4 amended.  In the number interpreter an exclusive lower (upper)
bound is converted to a closed bound by offsetting +0.001 (−0.001)
unconditionally — the bound fold neither consults nor alters the
multiple-of/integer-format state — while the ±1 offsets for exclusive
bounds are applied in the bigint interpreter. -/
theorem exclusive_offset_amended :
    (∀ (st : NumState) (v : ℚ),
      (numStep st (.greaterThan v false)).min = max st.min (v + 1/1000)) ∧
    (∀ (st : NumState) (v : ℚ),
      (numStep st (.lessThan v false)).max =
        some (match st.max with
          | none => v - 1/1000
          | some m => min m (v - 1/1000))) ∧
    (∀ (st : NumState) (v : ℚ),
      (numStep st (.greaterThan v false)).multipleOf = st.multipleOf) ∧
    (∀ (st : NumState) (v : ℚ),
      (numStep st (.lessThan v false)).multipleOf = st.multipleOf) ∧
    (∀ (st : BigState) (v : ℤ),
      (bigStep st (.greaterThan v false)).min =
        some (match st.min with
          | none => v + 1
          | some m => if v + 1 < m then v + 1 else m)) ∧
    (∀ (st : BigState) (v : ℤ),
      (bigStep st (.lessThan v false)).max =
        some (match st.max with
          | none => v - 1
          | some m => if v - 1 > m then v - 1 else m)) := by
  refine ⟨fun st v => rfl, fun st v => rfl, fun st v => rfl, fun st v => rfl,
    fun st v => rfl, fun st v => rfl⟩

/-! ## Claim C5: override lookup precedes kind dispatch -/

/-- C5.  Whenever the override table holds an entry for a node identity,
compilation returns the resolved generator — invoking the factory with
the live compiler when the entry is a factory — and performs no
interpretation of the node: any two nodes with that identity, whatever
their kind tags, checks lists or children, compile to that same resolved
generator. -/
theorem override_precedes_kind_dispatch (env : FactoryEnv) (ov : Overrides)
    (path : String) (s t : Schema) (e : OverrideArb)
    (hid : t.id = s.id)
    (h : lookupOv ov s.id = some e) :
    inputWithPath env ov s path = .ok (resolveOverride env ov e) ∧
    inputWithPath env ov t path = .ok (resolveOverride env ov e) := by
  have hf : findOverride env ov s.id = some (resolveOverride env ov e) := by
    rw [findOverride, h, Option.map_some']
  constructor
  · exact inputWithPath_of_override env ov s path _ hf
  · exact inputWithPath_of_override env ov t path _ (by rw [hid]; exact hf)

/-- Witness for C5: an override entry keyed at identity 5 short-circuits
both a number node and a string node carrying that identity. -/
theorem override_precedes_kind_dispatch_witness :
    inputWithPath (fun _ _ => .anything) [(5, .fixed .boolB)] (.num 5 none) "" =
      .ok .boolB ∧
    inputWithPath (fun _ _ => .anything) [(5, .fixed .boolB)]
        (.str 5 (some [.minLength 3])) "" = .ok .boolB := by
  have h := override_precedes_kind_dispatch (fun _ _ => .anything)
    [(5, .fixed .boolB)] "" (.num 5 none) (.str 5 (some [.minLength 3]))
    (.fixed .boolB) rfl rfl
  exact ⟨h.1, h.2⟩

/-! ## Claim C7: scalar output generators -/

/-- C7 counterexample.  `int` is a member of `SCALAR_TYPES`, yet for an
int-kind schema carrying an override, `outputOf` is not the input
generator: `int` has no entry in the builders table, so the first-party
scalar short-circuit is skipped and the parse/filter/project chain is
appended on top of the overridden input generator. -/
theorem scalar_output_int_override_counterexample :
    Kind.int ∈ SCALAR_TYPES ∧
    inputOf (fun _ _ => .anything) [(7, .fixed .boolB)] (.intS 7) = .ok .boolB ∧
    outputOf (fun _ _ => .anything) [(7, .fixed .boolB)] (.intS 7) =
      .ok (.outputDerived .boolB (.intS 7)) ∧
    (Except.ok (Arb.outputDerived .boolB (.intS 7)) : Except Err Arb) ≠
      .ok .boolB := by
  refine ⟨by decide, rfl, rfl, by simp⟩

/-- C7 amended.  For every schema whose kind is in the scalar set other
than `int` — that is string, number, bigint, boolean, date, undefined,
null, literal, enum, any, unknown, void — the generator returned by
`outputOf` is exactly the one returned by `inputOf` (in particular, with
no parse, filter, or map step on top).  The `int` kind, although listed
in `SCALAR_TYPES`, has no builder, fails the first-party test, and so
skips the scalar short-circuit. -/
theorem scalar_output_eq_input_amended (env : FactoryEnv) (ov : Overrides)
    (s : Schema) (hs : s.kind ∈ SCALAR_TYPES) (hint : s.kind ≠ .int) :
    outputOf env ov s = inputOf env ov s := by
  have hb : hasBuilder s.kind = true := by
    cases s <;> simp_all [Schema.kind, hasBuilder]
  rw [outputOf]
  cases h : inputOf env ov s with
  | error e => rfl
  | ok a =>
      show (if hasBuilder s.kind = true ∧ s.kind ∈ SCALAR_TYPES then
          Except.ok a else Except.ok (.outputDerived a s)) = Except.ok a
      rw [if_pos ⟨hb, hs⟩]

/-- Witness for C7 amended at a boolean schema. -/
theorem scalar_output_eq_input_amended_witness :
    outputOf (fun _ _ => .anything) [] (.boolS 3) =
      inputOf (fun _ _ => .anything) [] (.boolS 3) :=
  scalar_output_eq_input_amended (fun _ _ => .anything) [] (.boolS 3)
    (by decide) (by decide)

/-! ## Claim C10: literal schemas generate only the first value -/

/-- C10.  For a literal schema declaring more than one value, the
compiled input generator is the constant generator of the first declared
value: it can generate exactly that value, and in particular none of the
other declared values (when distinct from the first) is ever generated. -/
theorem literal_first_value_only (env : FactoryEnv) (id : Nat) (path : String)
    (values : List Val) (_hlen : 1 < values.length) :
    inputWithPath env [] (.lit id values) path =
      .ok (.constant (values.headD .undef)) ∧
    (∀ v, canGen (.constant (values.headD .undef)) v ↔ v = values.headD .undef) ∧
    (∀ w ∈ values.tail, w ≠ values.headD .undef →
      ¬ canGen (.constant (values.headD .undef)) w) := by
  refine ⟨rfl, fun v => Iff.rfl, fun w _ hw => ?_⟩
  intro hcan
  exact hw hcan

/-- Witness for C10 at the two-valued literal schema with values 1 and 2:
only the first value is generable. -/
theorem literal_first_value_only_witness :
    inputWithPath (fun _ _ => .anything) [] (.lit 0 [.num 1, .num 2]) "" =
      .ok (.constant (([Val.num 1, Val.num 2]).headD .undef)) ∧
    ¬ canGen (.constant (([Val.num 1, Val.num 2]).headD .undef)) (.num 2) := by
  have h := literal_first_value_only (fun _ _ => .anything) 0 ""
    [.num 1, .num 2] (by decide)
  refine ⟨h.1, h.2.2 (.num 2) (by simp) ?_⟩
  simp only [List.headD, ne_eq, Val.num.injEq]
  norm_num

/-! ## Claim C2: inverted integer bounds fail at construction -/

/-- C2.  For a number schema whose resolved multiple-of factor and bounds
yield inverted scaled integer bounds, compiling the input generator
returns the Generation error citing the path: the failure happens at
generator-construction time — no generator value is produced that could
defer the failure to sampling. -/
theorem number_inverted_bounds_construction_error (env : FactoryEnv)
    (id : Nat) (checks : List NumCheck) (path : String) (factor : ℚ)
    (hm : (applySafeInt (numFold checks)).multipleOf = some factor)
    (hinv : intMaxOf (applySafeInt (numFold checks)) factor <
      intMinOf (applySafeInt (numFold checks)) factor) :
    inputWithPath env [] (.num id (some checks)) path =
      .error (.generation (invertedMsg path
        (intMinOf (applySafeInt (numFold checks)) factor)
        (intMaxOf (applySafeInt (numFold checks)) factor))) := by
  have hb : inputWithPath env [] (.num id (some checks)) path =
      numberBuilder (.num id (some checks)) (some checks) path := rfl
  rw [hb, numberBuilder_eq_of_multipleOf _ _ _ _ hm, if_pos hinv]

/-- Witness for C2: the schema `number, ≥ 10, ≤ 5, multiple of 1`
resolves to the inverted integer bounds 10 > 5 and compiling raises the
Generation error naming its path. -/
theorem number_inverted_bounds_construction_error_witness :
    inputWithPath (fun _ _ => .anything) []
        (.num 0 (some [.greaterThan 10 true, .lessThan 5 true, .multipleOf 1]))
        "p" =
      .error (.generation (invertedMsg "p" 10 5)) := by
  have hm : (applySafeInt (numFold
      [NumCheck.greaterThan 10 true, .lessThan 5 true, .multipleOf 1])).multipleOf =
      some 1 := by
    simp [numFold, numStep, applySafeInt]
  have hmin : (applySafeInt (numFold
      [NumCheck.greaterThan 10 true, .lessThan 5 true, .multipleOf 1])).min = 10 := by
    have hmax : max (-1000000 : ℚ) 10 = 10 := max_eq_right (by norm_num)
    simp only [numFold, List.foldl, numStep, applySafeInt, if_true,
      Bool.false_eq_true, if_false]
    simpa using hmax
  have hmaxv : (applySafeInt (numFold
      [NumCheck.greaterThan 10 true, .lessThan 5 true, .multipleOf 1])).max =
      some 5 := by
    simp [numFold, numStep, applySafeInt]
  have hsafe : (applySafeInt (numFold
      [NumCheck.greaterThan 10 true, .lessThan 5 true, .multipleOf 1])).hasSafeIntFormat =
      false := by
    simp [numFold, numStep, applySafeInt]
  have hImin : intMinOf (applySafeInt (numFold
      [NumCheck.greaterThan 10 true, .lessThan 5 true, .multipleOf 1])) 1 = 10 := by
    rw [intMinOf, hmin]
    rw [Int.ceil_eq_iff]; norm_num
  have hImax : intMaxOf (applySafeInt (numFold
      [NumCheck.greaterThan 10 true, .lessThan 5 true, .multipleOf 1])) 1 = 5 := by
    rw [intMaxOf, hmaxv, hsafe]
    simp only [Option.getD, Bool.false_eq_true, if_false]
    rw [Int.floor_eq_iff]; norm_num
  have h := number_inverted_bounds_construction_error (fun _ _ => .anything) 0
    [NumCheck.greaterThan 10 true, .lessThan 5 true, .multipleOf 1] "p" 1 hm
    (by rw [hImin, hImax]; decide)
  rw [hImin, hImax] at h
  exact h

/-! ## Claim C6: copy-on-write, identity-keyed overrides -/

/-- C6.  `override` produces a table that holds the new entry at the
given node identity; every other identity resolves exactly as in the
original table (the original, being cloned entry by entry, is never
mutated); consequently a structurally identical but distinct node — one
with a different identity and no entry of its own — compiles identically
under the old and the new configuration. -/
theorem override_copy_on_write (ov : Overrides) (sid : Nat) (e : OverrideArb)
    (hnd : (ov.map Prod.fst).Nodup) :
    lookupOv (overrideCfg ov sid e) sid = some e ∧
    (∀ k, k ≠ sid → lookupOv (overrideCfg ov sid e) k = lookupOv ov k) ∧
    (∀ (env : FactoryEnv) (t : Schema) (path : String),
      (∀ i ∈ t.ids, i ≠ sid ∧ lookupOv ov i = none) →
      inputWithPath env (overrideCfg ov sid e) t path =
        inputWithPath env ov t path) := by
  have hclone : cloneOv ov = ov := cloneOv_eq ov hnd
  refine ⟨?_, ?_, ?_⟩
  · rw [overrideCfg, hclone]
    exact lookupOv_mapSet_self ov sid e
  · intro k hk
    rw [overrideCfg, hclone]
    exact lookupOv_mapSet_ne ov sid e k hk
  · intro env t path h
    refine inputWithPath_lookup_none env _ _ t path ?_
    intro i hi
    have hii := h i hi
    refine ⟨?_, hii.2⟩
    rw [overrideCfg, hclone, lookupOv_mapSet_ne ov sid e i hii.1]
    exact hii.2

/-- Witness for C6: deriving a table with an override keyed at identity 2
adds that entry, leaves the entry at identity 1 as it was, and compiling
a distinct boolean node of identity 3 is unchanged. -/
theorem override_copy_on_write_witness :
    lookupOv (overrideCfg [(1, .fixed .boolB)] 2 (.fixed .dateB)) 2 =
      some (.fixed .dateB) ∧
    lookupOv (overrideCfg [(1, .fixed .boolB)] 2 (.fixed .dateB)) 1 =
      lookupOv [(1, .fixed .boolB)] 1 ∧
    inputWithPath (fun _ _ => .anything)
        (overrideCfg [(1, .fixed .boolB)] 2 (.fixed .dateB)) (.boolS 3) "" =
      inputWithPath (fun _ _ => .anything) [(1, .fixed .boolB)] (.boolS 3) "" := by
  have h := override_copy_on_write [(1, .fixed .boolB)] 2 (.fixed .dateB)
    (by simp)
  refine ⟨h.1, h.2.1 1 (by decide), h.2.2 (fun _ _ => .anything) (.boolS 3) "" ?_⟩
  intro i hi
  simp only [Schema.ids, Schema.id, List.mem_singleton] at hi
  subst hi
  exact ⟨by decide, rfl⟩

/-! ## Claim C8: modulo-3 refinement pattern detection -/

lemma detectModulo3_some (fn : ℚ → Bool) (l : List ℚ)
    (h1 : fn 1 = false) (h2 : fn 2 = false) (h4 : fn 4 = false)
    (hex : ∃ t ∈ l, fn t = true ∧ jsRem t 3 = 0) :
    detectModulo3 fn l = some 3 := by
  induction l with
  | nil => simp at hex
  | cons t rest ih =>
      by_cases hc : fn t = true ∧ jsRem t 3 = 0
      · rw [detectModulo3, if_pos hc, if_pos ⟨h1, h2, h4⟩]
      · rw [detectModulo3, if_neg hc]
        refine ih ?_
        rcases hex with ⟨u, hu, hfu⟩
        rcases List.mem_cons.1 hu with h | h
        · subst h
          exact absurd hfu hc
        · exact ⟨u, h, hfu⟩

/-- Unfolding of the detector once the modulo loop has found a divisor. -/
lemma trySmart_eq_of_modulo (fn : ℚ → Bool) (mn mx d : ℚ)
    (hd : detectModulo3 fn numTestValues = some d) :
    trySmart fn mn mx =
      if (⌈mn / d⌉ : ℤ) ≤ ⌊mx / d⌋ then
        some (.integerMul ⌈mn / d⌉ ⌊mx / d⌋ d)
      else detectEquality fn mn mx eqTestValues := by
  rw [trySmart, hd]

lemma firstSmart_cons_of_some (fn : ℚ → Bool) (rest : List (ℚ → Bool))
    (mn mx : ℚ) (a : Arb) (h : trySmart fn mn mx = some a) :
    firstSmart (fn :: rest) mn mx = some a := by
  rw [firstSmart, h]

lemma finishCustom_eq_of_firstSmart (self : Schema) (path : String)
    (st : NumState) (arbitrary smart : Arb)
    (hcc : st.customChecks.isEmpty = false)
    (hfs : firstSmart st.customChecks st.min
      (st.max.getD (if st.hasSafeIntFormat then MAX_SAFE_INTEGER else 1000000)) =
      some smart) :
    finishCustom self path st arbitrary = smart := by
  rw [finishCustom, if_neg (by rw [hcc]; exact Bool.false_ne_true), hfs]

lemma ceil_neg_million_div_three : (⌈(-1000000 : ℚ) / 3⌉ : ℤ) = -333333 := by
  rw [Int.ceil_eq_iff]; norm_num

lemma floor_million_div_three : (⌊(1000000 : ℚ) / 3⌋ : ℤ) = 333333 := by
  rw [Int.floor_eq_iff]; norm_num

lemma jsTrunc_intCast (k : ℤ) : jsTrunc (k : ℚ) = k := by
  rw [jsTrunc]
  split
  · exact Int.ceil_intCast k
  · exact Int.floor_intCast k

lemma jsRem_mul_three (k : ℤ) : jsRem ((k : ℚ) * 3) 3 = 0 := by
  rw [jsRem]
  have h3 : ((k : ℚ) * 3) / 3 = (k : ℚ) := by
    field_simp
  rw [h3, jsTrunc_intCast]
  ring

/-- C8.  For a number schema carrying a custom refinement that accepts
some multiple of 3 among the probed sentinels and rejects 1, 2 and 4, the
compiler classifies the refinement as divisible-by-3 and compiles the
generator that draws an integer from the scaled default range and
multiplies it by 3: every generable value satisfies `value % 3 == 0`, and
the compiled generator is not a rejection-sampling filter. -/
theorem refinement_modulo3_smart_generation (env : FactoryEnv) (id : Nat)
    (path : String) (fn : ℚ → Bool)
    (h1 : fn 1 = false) (h2 : fn 2 = false) (h4 : fn 4 = false)
    (hex : ∃ t ∈ numTestValues, fn t = true ∧ jsRem t 3 = 0) :
    inputWithPath env [] (.num id (some [.custom fn])) path =
      .ok (.integerMul (-333333) 333333 3) ∧
    (∀ v, canGen (.integerMul (-333333) 333333 3) v →
      ∃ q, v = .num q ∧ jsRem q 3 = 0) ∧
    (∀ (base : Arb) (sch : Schema) (p : String),
      Arb.integerMul (-333333) 333333 3 ≠ .filterSchema base sch p) := by
  have hmod := detectModulo3_some fn numTestValues h1 h2 h4 hex
  have hsmart : trySmart fn (-1000000) 1000000 =
      some (.integerMul (-333333) 333333 3) := by
    rw [trySmart_eq_of_modulo fn _ _ 3 hmod, ceil_neg_million_div_three,
      floor_million_div_three, if_pos (by decide)]
  refine ⟨?_, ?_, ?_⟩
  · have hb : inputWithPath env [] (.num id (some [.custom fn])) path =
        numberBuilder (.num id (some [.custom fn])) (some [.custom fn]) path := rfl
    have hm : (applySafeInt (numFold [NumCheck.custom fn])).multipleOf = none := rfl
    have hcc : ((applySafeInt (numFold [NumCheck.custom fn])).customChecks).isEmpty =
        false := rfl
    have hfs : firstSmart
        ((applySafeInt (numFold [NumCheck.custom fn])).customChecks)
        ((applySafeInt (numFold [NumCheck.custom fn])).min)
        (((applySafeInt (numFold [NumCheck.custom fn])).max).getD
          (if (applySafeInt (numFold [NumCheck.custom fn])).hasSafeIntFormat then
            MAX_SAFE_INTEGER else 1000000)) =
        some (.integerMul (-333333) 333333 3) :=
      firstSmart_cons_of_some fn [] (-1000000) 1000000 _ hsmart
    rw [hb, numberBuilder_eq_of_noMultipleOf _ _ _ hm,
      finishCustom_eq_of_firstSmart _ _ _ _ _ hcc hfs]
  · intro v hv
    rcases hv with ⟨k, _, _, hk⟩
    exact ⟨(k : ℚ) * 3, hk, jsRem_mul_three k⟩
  · intro base sch p h
    exact Arb.noConfusion h

/-- Witness for C8 with the refinement `x === 0` (which accepts the
sentinel 0, a multiple of 3, and rejects 1, 2 and 4): the compiled
generator is the direct multiple-of-3 generator. -/
theorem refinement_modulo3_smart_generation_witness :
    inputWithPath (fun _ _ => .anything) []
        (.num 1 (some [.custom (fun q => decide (q = 0))])) "" =
      .ok (.integerMul (-333333) 333333 3) := by
  refine (refinement_modulo3_smart_generation (fun _ _ => .anything) 1 ""
    (fun q => decide (q = 0)) ?_ ?_ ?_ ⟨0, ?_, ?_, ?_⟩).1
  · simp only [decide_eq_false_iff_not]
    norm_num
  · simp only [decide_eq_false_iff_not]
    norm_num
  · simp only [decide_eq_false_iff_not]
    norm_num
  · simp [numTestValues]
  · simp
  · simp [jsRem, jsTrunc]

/-! ## Claim C9: string length bounds -/

/-- Unfolding of the string builder once the checks loop has finished
without an early return. -/
lemma stringBuilder_eq_of_inl (self : Schema) (path : String)
    (checks : List StrCheck) (st : StrState)
    (hl : stringLoop {} checks = .inl st) :
    stringBuilder self (some checks) path =
      if hasEmailFormat checks then .ok (.emailB st.minLength st.maxLength)
      else if st.hasUnsupportedCheck then
        .ok (.filterSchema
          (st.mappings.foldl (fun a f => Arb.strMap a f)
            (Arb.stringB st.minLength (st.maxLength.getD (2 * st.minLength + 10))))
          self path)
      else
        .ok (st.mappings.foldl (fun a f => Arb.strMap a f)
          (Arb.stringB st.minLength (st.maxLength.getD (2 * st.minLength + 10)))) := by
  rw [stringBuilder, hl]

/-- C9.  For a string schema whose checks are only min-length and
max-length checks, the compiled generator is the bounded string
generator: the minimum is the maximum over all min-length checks (or 0),
the maximum the minimum over all max-length checks, defaulting to
`2*min + 10` when no max-length check was ever set; every generable value
is a string whose length lies within those bounds; a string schema with
no checks list compiles to the unconstrained default string generator. -/
theorem string_length_bounds (env : FactoryEnv) (id : Nat) (path : String)
    (checks : List StrCheck) (hall : checks.all isLenCheck = true) :
    inputWithPath env [] (.str id (some checks)) path =
      .ok (.stringB (resolvedMinLen checks)
        ((resolvedMaxLen checks).getD (2 * resolvedMinLen checks + 10))) ∧
    (∀ v, canGen (.stringB (resolvedMinLen checks)
        ((resolvedMaxLen checks).getD (2 * resolvedMinLen checks + 10))) v →
      ∃ s, v = .str s ∧ resolvedMinLen checks ≤ s.length ∧
        s.length ≤ (resolvedMaxLen checks).getD (2 * resolvedMinLen checks + 10)) ∧
    inputWithPath env [] (.str id none) path = .ok .stringDefault := by
  have hemail := hasEmailFormat_of_lenChecks checks hall
  have hloop := stringLoop_of_lenChecks checks {} hall
  refine ⟨?_, fun v h => h, rfl⟩
  have hb : inputWithPath env [] (.str id (some checks)) path =
      stringBuilder (.str id (some checks)) (some checks) path := rfl
  rw [hb, stringBuilder_eq_of_inl _ _ _ _ hloop,
    if_neg (by rw [hemail]; exact Bool.false_ne_true),
    if_neg (by exact Bool.false_ne_true)]
  rfl

/-- Witness for C9 at the checks `min 2, max 8, min 4`: the compiled
generator is the bounded string generator with resolved bounds 4 and 8. -/
theorem string_length_bounds_witness :
    inputWithPath (fun _ _ => .anything) []
        (.str 0 (some [.minLength 2, .maxLength 8, .minLength 4])) "" =
      .ok (.stringB
        (resolvedMinLen [.minLength 2, .maxLength 8, .minLength 4])
        ((resolvedMaxLen [.minLength 2, .maxLength 8, .minLength 4]).getD
          (2 * resolvedMinLen [.minLength 2, .maxLength 8, .minLength 4] + 10))) ∧
    resolvedMinLen [.minLength 2, .maxLength 8, .minLength 4] = 4 ∧
    resolvedMaxLen [.minLength 2, .maxLength 8, .minLength 4] = some 8 := by
  refine ⟨(string_length_bounds (fun _ _ => .anything) 0 ""
    [.minLength 2, .maxLength 8, .minLength 4] (by decide)).1, by decide, by decide⟩

end ZodFastCheckProof
